import Mathlib

/-!
# Verification of the keras-js 2D pooling kernel

Shallow embedding of `src/layers/pooling/_Pooling2D.js` (`_Pooling2D`:
constructor, `_calcOutputShape`, `_padInput`, `call`) and of the base
`Layer.call` from `src/Layer.js`, together with theorems checking the
natural-language specification against this embedding.

Modelling conventions:
* JS numbers holding tensor data are modelled by `JSNum`: either a rational
  value or the `-Infinity` sentinel the padding step uses for max pooling.
* Shape arithmetic (`Math.floor`, subtraction that can go negative) is done
  in `ℤ` with `Int.fdiv`, which is exactly `Math.floor (a / b)` for `b > 0`.
* An ndarray is modelled as a shape triple plus a total data function;
  reads outside the shape are junk and are never relied on.
* `ops.assign`/`.hi`/`.lo` region copies become piecewise data functions,
  `ops.sum` becomes a `Finset` sum, `ops.sup` a fold of the binary max.
* Division by zero (JS would give `±Infinity`/`NaN`) is modelled by the
  junk value `ℚ`-division produces; no theorem touches that case.
-/

/-- A JS float as used by the pooling kernel: a finite value (modelled as a
rational) or the `-Infinity` padding sentinel. -/
inductive JSNum where
  | negInf : JSNum
  | val : ℚ → JSNum
deriving DecidableEq

namespace JSNum

/-- Binary maximum on `JSNum`; `-Infinity` is the identity. -/
def jmax : JSNum → JSNum → JSNum
  | negInf, y => y
  | x, negInf => x
  | val a, val b => val (max a b)

/-- Addition; `-Infinity` absorbs (as in IEEE arithmetic away from `+∞`). -/
def add : JSNum → JSNum → JSNum
  | negInf, _ => negInf
  | _, negInf => negInf
  | val a, val b => val (a + b)

instance : Add JSNum := ⟨JSNum.add⟩

instance : Zero JSNum := ⟨JSNum.val 0⟩

theorem add_def (x y : JSNum) : x + y = JSNum.add x y := rfl

instance : AddCommMonoid JSNum where
  add_assoc a b c := by
    cases a <;> cases b <;> cases c <;>
      simp [add_def, JSNum.add, add_assoc]
  zero_add a := by
    cases a <;> simp [add_def, JSNum.add]
  add_zero a := by
    cases a <;> simp [add_def, JSNum.add]
  add_comm a b := by
    cases a <;> cases b <;> simp [add_def, JSNum.add, add_comm]
  nsmul := nsmulRec

/-- Division of a `JSNum` by an integer (the average-pooling divisor).
`-Infinity / n = -Infinity`; division by `0` yields the `ℚ` junk value. -/
def jdiv : JSNum → ℤ → JSNum
  | negInf, _ => negInf
  | val a, n => val (a / (n : ℚ))

end JSNum

/-- A 3-axis ndarray: shape plus a total data function (reads outside the
shape are unobservable junk). -/
structure Tensor3 where
  rows : ℕ
  cols : ℕ
  channels : ℕ
  data : ℕ → ℕ → ℕ → JSNum

/-- The configuration state a `_Pooling2D` instance carries.  The three
string-valued fields are strings in the JS source (`borderMode`,
`dimOrdering`, `poolingFunc`) and are compared against string literals. -/
structure PoolLayer where
  poolSize : ℕ × ℕ
  strides : ℕ × ℕ
  borderMode : String
  dimOrdering : String
  poolingFunc : String

/-- The attribute object accepted by the `_Pooling2D` constructor.  `none`
models an absent key (or `strides: null`).  A `poolingFunc` attribute can be
present but the constructor never reads it. -/
structure PoolAttrs where
  poolSize : Option (ℕ × ℕ) := none
  strides : Option (ℕ × ℕ) := none
  borderMode : Option String := none
  dimOrdering : Option String := none
  poolingFunc : Option String := none

/-- `_Pooling2D`'s constructor: defaults `poolSize = (2,2)`,
`strides = poolSize` when null, `borderMode = 'valid'`, `dimOrdering = 'tf'`,
and unconditionally sets `poolingFunc = 'max'`. -/
def poolingConstructor (attrs : PoolAttrs) : PoolLayer :=
  let poolSize := attrs.poolSize.getD (2, 2)
  { poolSize := poolSize
    strides := attrs.strides.getD poolSize
    borderMode := attrs.borderMode.getD "valid"
    dimOrdering := attrs.dimOrdering.getD "tf"
    poolingFunc := "max" }

/-- The state of a base `Layer` instance (`src/Layer.js`) that its methods
can read or write. -/
structure LayerState where
  layerClass : String
  name : Option String
  params : List String
  useWeblas : Bool

/-- `Layer.call` from `src/Layer.js`: `call (x) { return x }`.  Modelled with
explicit state passing: it returns the state and the tensor it was given. -/
def layerCall (l : LayerState) (x : Tensor3) : LayerState × Tensor3 := (l, x)

/-- `_Pooling2D._calcOutputShape`: derives `(outputRows, outputCols,
channels)` and the padding split `(rowBefore, rowAfter, colBefore, colAfter)`
from the input shape, pool size, strides and border mode.  `Math.floor` of a
quotient with positive divisor is `Int.fdiv`. -/
def calcOutputShape (l : PoolLayer) (inputRows inputCols inputChannels : ℕ) :
    (ℤ × ℤ × ℕ) × (ℤ × ℤ × ℤ × ℤ) :=
  let nbRow : ℤ := l.poolSize.1
  let nbCol : ℤ := l.poolSize.2
  let s0 : ℤ := l.strides.1
  let s1 : ℤ := l.strides.2
  let H : ℤ := inputRows
  let W : ℤ := inputCols
  let outputRows : ℤ :=
    if l.borderMode == "same" then Int.fdiv (H + s0 - 1) s0
    else Int.fdiv (H - nbRow + s0) s0
  let outputCols : ℤ :=
    if l.borderMode == "same" then Int.fdiv (W + s1 - 1) s1
    else Int.fdiv (W - nbCol + s1) s1
  let paddingRow : ℤ :=
    if l.borderMode == "same" then max 0 ((outputRows - 1) * s0 + nbRow - H)
    else 0
  let paddingCol : ℤ :=
    if l.borderMode == "same" then max 0 ((outputCols - 1) * s1 + nbCol - W)
    else 0
  let paddingRowBefore := Int.fdiv paddingRow 2
  let paddingRowAfter := paddingRow - paddingRowBefore
  let paddingColBefore := Int.fdiv paddingCol 2
  let paddingColAfter := paddingCol - paddingColBefore
  ((outputRows, outputCols, inputChannels),
   (paddingRowBefore, paddingRowAfter, paddingColBefore, paddingColAfter))

/-- `_Pooling2D._padInput`: when `borderMode === 'same'` it allocates a new
zero tensor of the padded shape, fills it with `-Infinity` if the pooling
function is `max`, copies the input into the offset region, and assigns the
new backing store to the caller's handle; otherwise it returns the tensor
untouched.  The boolean records whether a freshly allocated backing store was
assigned (`x.tensor = _x.tensor`), which happens exactly in the `'same'`
branch. -/
def padInput (func : String) (rb ra cb ca : ℕ) (borderMode : String)
    (x : Tensor3) : Tensor3 × Bool :=
  if borderMode == "same" then
    ({ rows := x.rows + rb + ra
       cols := x.cols + cb + ca
       channels := x.channels
       data := fun i j c =>
         if rb ≤ i ∧ i < rb + x.rows ∧ cb ≤ j ∧ j < cb + x.cols ∧
            c < x.channels then
           x.data (i - rb) (j - cb) c
         else if func == "max" then JSNum.negInf else JSNum.val 0 },
     true)
  else (x, false)

/-- `x.tensor.transpose(1, 2, 0)`: axis `k` of the result is axis
`perm[k]` of the input, so a `(C, H, W)` tensor becomes `(H, W, C)`. -/
def transpose120 (x : Tensor3) : Tensor3 :=
  { rows := x.cols
    cols := x.channels
    channels := x.rows
    data := fun a b c => x.data c a b }

/-- `x.tensor.transpose(2, 0, 1)`: a `(H, W, C)` tensor becomes
`(C, H, W)`. -/
def transpose201 (x : Tensor3) : Tensor3 :=
  { rows := x.channels
    cols := x.rows
    channels := x.cols
    data := fun a b c => x.data b c a }

/-- The index sequence of the loop `for (i = 0; i + k <= n; i += s)`: the
multiples `m * s` with `m * s + k ≤ n`, in increasing order.  (For `k ≥ 1`
and `s ≥ 1` every such `m` is `< n`, so `List.range n` covers them all;
`s = 0` would be an infinite JS loop and `k = 0` never occurs: `poolSize`
components are positive.) -/
def windowStarts (n k s : ℕ) : List ℕ :=
  ((List.range n).filter fun m => m * s + k ≤ n).map (· * s)

/-- The `nbRowInPadding` / `nbColInPadding` computation of the reduction
loop, for a window starting at `i` of extent `k`, with `before`/`after`
padding and padded length `paddedLen`, done in `ℤ` as in JS:
`if (i < before) { before - i } else if (i + k > paddedLen - after)
{ (i + k) - (paddedLen - after) } else { 0 }`. -/
def nbInPadding (i k before after paddedLen : ℕ) : ℤ :=
  if (i : ℤ) < before then (before : ℤ) - i
  else if ((paddedLen : ℤ) - after) < (i : ℤ) + k then
    ((i : ℤ) + k) - ((paddedLen : ℤ) - after)
  else 0

/-- `ops.sup` over the `kh × kw` window of channel `c` starting at
`(i, j)`. -/
def windowMax (x : Tensor3) (kh kw i j c : ℕ) : JSNum :=
  (List.range kh).foldr
    (fun a acc =>
      (List.range kw).foldr
        (fun b acc2 => JSNum.jmax (x.data (i + a) (j + b) c) acc2) acc)
    JSNum.negInf

/-- `ops.sum` over the `kh × kw` window of channel `c` starting at
`(i, j)`. -/
def windowSum (x : Tensor3) (kh kw i j c : ℕ) : JSNum :=
  ∑ a ∈ Finset.range kh, ∑ b ∈ Finset.range kw, x.data (i + a) (j + b) c

/-- One output cell of the reduction loop: the window starting at `(i, j)` of
the (padded) tensor `x`, reduced on channel `c`.  If the pooling function is
neither `max` nor `average` the cell is never written and keeps the zero the
output tensor was created with (this branch is unreachable through `call`,
which throws first). -/
def poolCell (func : String) (kh kw rb ra cb ca : ℕ) (x : Tensor3)
    (i j c : ℕ) : JSNum :=
  if func == "max" then windowMax x kh kw i j c
  else if func == "average" then
    let nbRowInPadding := nbInPadding i kh rb ra x.rows
    let nbColInPadding := nbInPadding j kw cb ca x.cols
    let nbCellsEffective := ((kh : ℤ) - nbRowInPadding) *
      ((kw : ℤ) - nbColInPadding)
    JSNum.jdiv (windowSum x kh kw i j c) nbCellsEffective
  else JSNum.val 0

/-- The output tensor `y` of the reduction loop: shape is the derived
`outputShape` (negative derived sizes clamp to `0`, as an ndarray cannot
hold them), cell `(_i, _j, c)` is the reduction of the `_i`-th/`_j`-th
visited window; cells no loop iteration writes keep their initial zero. -/
def poolOutput (func : String) (kh kw s0 s1 rb ra cb ca : ℕ)
    (outShape : ℤ × ℤ × ℕ) (x : Tensor3) : Tensor3 :=
  let rowsL := windowStarts x.rows kh s0
  let colsL := windowStarts x.cols kw s1
  { rows := outShape.1.toNat
    cols := outShape.2.1.toNat
    channels := outShape.2.2
    data := fun _i _j c =>
      match rowsL[_i]?, colsL[_j]? with
      | some i, some j =>
          if c < x.channels then poolCell func kh kw rb ra cb ca x i j c
          else JSNum.val 0
      | _, _ => JSNum.val 0 }

/-- `_Pooling2D.call`: throws unless the pooling function is `max` or
`average`; converts `th` ordering to `tf`, derives shape and padding, pads,
runs the reduction loop, and converts back. -/
def poolingCall (l : PoolLayer) (x : Tensor3) : Except String Tensor3 :=
  if l.poolingFunc ≠ "max" ∧ l.poolingFunc ≠ "average" then
    Except.error "[pooling._Pooling2D] pooling function must be max or average."
  else
    let x1 := if l.dimOrdering == "th" then transpose120 x else x
    let os := calcOutputShape l x1.rows x1.cols x1.channels
    let rb := os.2.1.toNat
    let ra := os.2.2.1.toNat
    let cb := os.2.2.2.1.toNat
    let ca := os.2.2.2.2.toNat
    let xp := (padInput l.poolingFunc rb ra cb ca l.borderMode x1).1
    let y := poolOutput l.poolingFunc l.poolSize.1 l.poolSize.2
      l.strides.1 l.strides.2 rb ra cb ca os.1 xp
    let y2 := if l.dimOrdering == "th" then transpose201 y else y
    Except.ok y2

/-! ## Specification-side definitions

These follow the spec's words (not the source) and are compared against the
source-derived definitions above in refinement theorems. -/

/-- Spec: the full overlap of the half-open interval `[lo, lo + len)` with
the band `[bandLo, bandHi)` (truncated `ℕ` subtraction makes an empty
intersection count `0`). -/
def bandOverlap (lo len bandLo bandHi : ℕ) : ℕ :=
  min (lo + len) bandHi - max lo bandLo

/-- Spec: `rowsInPaddingForThisWindow` — the full overlap of the window's
row range `[i, i + k)` with the `before` band `[0, before)` plus its full
overlap with the `after` band `[paddedLen - after, paddedLen)`. -/
def specInPadding (i k before after paddedLen : ℕ) : ℕ :=
  bandOverlap i k 0 before + bandOverlap i k (paddedLen - after) paddedLen

/-- Spec: `effectiveCellCount = (kh − rowsInPaddingForThisWindow) ×
(kw − colsInPaddingForThisWindow)` with the full-overlap padding counts. -/
def specEffectiveCells (i j kh kw rb ra cb ca pR pC : ℕ) : ℕ :=
  (kh - specInPadding i kh rb ra pR) * (kw - specInPadding j kw cb ca pC)

/-- Spec: the genuine (non-padding) cells of the window at `(i, j)`, as
offsets `(a, b)` into the window: those whose padded coordinates fall in the
copied region `[rb, rb + H) × [cb, cb + W)`. -/
def genuineCells (i j kh kw rb cb h w : ℕ) : Finset (ℕ × ℕ) :=
  (Finset.range kh ×ˢ Finset.range kw).filter fun p =>
    (rb ≤ i + p.1 ∧ i + p.1 < rb + h) ∧ (cb ≤ j + p.2 ∧ j + p.2 < cb + w)

/-- Spec: the sum of the genuine input values inside the window at `(i, j)`
on channel `c`, read from the unpadded tensor `x`. -/
def genuineSum (x : Tensor3) (i j kh kw rb cb c : ℕ) : JSNum :=
  ∑ p ∈ genuineCells i j kh kw rb cb x.rows x.cols,
    x.data (i + p.1 - rb) (j + p.2 - cb) c

/-- Reads an output cell of `poolingCall`, with a junk default on the error
branch (used only to state concrete counterexamples). -/
def callData (l : PoolLayer) (x : Tensor3) (i j c : ℕ) : JSNum :=
  match poolingCall l x with
  | Except.ok y => y.data i j c
  | Except.error _ => JSNum.negInf

/-- Spec: `Same`-mode output dimension, `floor((len + s - 1) / s)` in `ℕ`. -/
def sameOutDim (len s : ℕ) : ℕ := (len + s - 1) / s

/-- Spec: `Same`-mode total padding `max(0, (out - 1) * s + k - len)`;
truncated `ℕ` subtraction realizes the `max(0, ·)`. -/
def samePadTotal (len k s : ℕ) : ℕ := (sameOutDim len s - 1) * s + k - len

/-! ## Arithmetic helpers -/

theorem fdiv_natCast (m n : ℕ) :
    Int.fdiv (m : ℤ) (n : ℤ) = ((m / n : ℕ) : ℤ) := by
  rw [Int.fdiv_eq_tdiv (Int.natCast_nonneg m) (Int.natCast_nonneg n),
    ← Int.ofNat_tdiv]

theorem fdiv_add_sub_one (len s : ℕ) (hs : 0 < s) (hl : 0 < len) :
    Int.fdiv ((len : ℤ) + s - 1) s = ((sameOutDim len s : ℕ) : ℤ) := by
  have h1 : (len : ℤ) + s - 1 = ((len + s - 1 : ℕ) : ℤ) := by omega
  rw [h1, fdiv_natCast]
  rfl

theorem one_le_sameOutDim (len s : ℕ) (hs : 0 < s) (hl : 0 < len) :
    1 ≤ sameOutDim len s := by
  rw [sameOutDim, Nat.one_le_div_iff hs]
  omega

theorem pad_total_eq (len k s : ℕ) (hs : 0 < s) (hl : 0 < len) :
    max 0 ((((sameOutDim len s : ℕ) : ℤ) - 1) * s + k - len) =
      ((samePadTotal len k s : ℕ) : ℤ) := by
  have h2 := one_le_sameOutDim len s hs hl
  have h3 : (((sameOutDim len s : ℕ) : ℤ) - 1) * s =
      (((sameOutDim len s - 1) * s : ℕ) : ℤ) := by
    have h4 : ((sameOutDim len s : ℕ) : ℤ) - 1 =
        ((sameOutDim len s - 1 : ℕ) : ℤ) := by omega
    rw [h4]
    push_cast
    ring
  rw [samePadTotal, h3]
  omega

theorem fdiv_two (p : ℕ) : Int.fdiv (p : ℤ) 2 = ((p / 2 : ℕ) : ℤ) := by
  rw [show (2 : ℤ) = ((2 : ℕ) : ℤ) from rfl, fdiv_natCast]

/-- `ℕ`-level characterization of `_calcOutputShape` in `'same'` mode:
output `ceil(len / s)` per axis, total padding split `floor / remainder`. -/
theorem calcOutputShape_same (l : PoolLayer) (H W C : ℕ)
    (hmode : l.borderMode = "same")
    (hs0 : 0 < l.strides.1) (hs1 : 0 < l.strides.2)
    (hH : 0 < H) (hW : 0 < W) :
    calcOutputShape l H W C =
      ((((sameOutDim H l.strides.1 : ℕ) : ℤ),
        ((sameOutDim W l.strides.2 : ℕ) : ℤ), C),
       (((samePadTotal H l.poolSize.1 l.strides.1 / 2 : ℕ) : ℤ),
        (samePadTotal H l.poolSize.1 l.strides.1 : ℤ) -
          ((samePadTotal H l.poolSize.1 l.strides.1 / 2 : ℕ) : ℤ),
        ((samePadTotal W l.poolSize.2 l.strides.2 / 2 : ℕ) : ℤ),
        (samePadTotal W l.poolSize.2 l.strides.2 : ℤ) -
          ((samePadTotal W l.poolSize.2 l.strides.2 / 2 : ℕ) : ℤ))) := by
  simp only [calcOutputShape, hmode, show ("same" == "same") = true from rfl,
    if_true, reduceIte]
  rw [fdiv_add_sub_one H l.strides.1 hs0 hH,
    fdiv_add_sub_one W l.strides.2 hs1 hW,
    pad_total_eq H l.poolSize.1 l.strides.1 hs0 hH,
    pad_total_eq W l.poolSize.2 l.strides.2 hs1 hW,
    fdiv_two, fdiv_two]

/-- `_calcOutputShape` in `'valid'` mode is the literal `ℤ` formula with all
paddings zero. -/
theorem calcOutputShape_valid (l : PoolLayer) (H W C : ℕ)
    (hmode : l.borderMode = "valid") :
    calcOutputShape l H W C =
      ((Int.fdiv ((H : ℤ) - l.poolSize.1 + l.strides.1) l.strides.1,
        Int.fdiv ((W : ℤ) - l.poolSize.2 + l.strides.2) l.strides.2, C),
       (0, 0, 0, 0)) := by
  simp only [calcOutputShape, hmode, show ("valid" == "same") = false from rfl]
  simp [Int.zero_fdiv]

/-! ## Claim theorems -/

/-- The property claimed by C1, about `_calcOutputShape` in `'same'` mode:
ceil-style output dims, `max(0, ·)` total padding (truncated `ℕ` subtraction),
split `before = ⌊total/2⌋`, `after = total - before`, and an odd total puts
the extra cell on the `after` side. -/
def C1Statement (l : PoolLayer) (H W C : ℕ) : Prop :=
  calcOutputShape l H W C =
    ((((sameOutDim H l.strides.1 : ℕ) : ℤ),
      ((sameOutDim W l.strides.2 : ℕ) : ℤ), C),
     (((samePadTotal H l.poolSize.1 l.strides.1 / 2 : ℕ) : ℤ),
      (samePadTotal H l.poolSize.1 l.strides.1 : ℤ) -
        ((samePadTotal H l.poolSize.1 l.strides.1 / 2 : ℕ) : ℤ),
      ((samePadTotal W l.poolSize.2 l.strides.2 / 2 : ℕ) : ℤ),
      (samePadTotal W l.poolSize.2 l.strides.2 : ℤ) -
        ((samePadTotal W l.poolSize.2 l.strides.2 / 2 : ℕ) : ℤ))) ∧
  (Odd (samePadTotal H l.poolSize.1 l.strides.1) →
    (calcOutputShape l H W C).2.2.1 = (calcOutputShape l H W C).2.1 + 1) ∧
  (Odd (samePadTotal W l.poolSize.2 l.strides.2) →
    (calcOutputShape l H W C).2.2.2.2 = (calcOutputShape l H W C).2.2.2.1 + 1)

/-- C1: in `'same'` mode, for positive window/stride components,
`_calcOutputShape` returns `outH = ⌊(H + sh - 1)/sh⌋`,
`outW = ⌊(W + sw - 1)/sw⌋`, total paddings `max(0, (out-1)*s + k - len)`,
split `before = ⌊total/2⌋`, `after = total - before`; an odd total always
biases the extra padding cell to the `after` side, never `before`. -/
theorem c1_same_shape_and_padding_split (l : PoolLayer) (H W C : ℕ)
    (hmode : l.borderMode = "same")
    (_hk0 : 0 < l.poolSize.1) (_hk1 : 0 < l.poolSize.2)
    (hs0 : 0 < l.strides.1) (hs1 : 0 < l.strides.2)
    (hH : 0 < H) (hW : 0 < W) : C1Statement l H W C := by
  have h := calcOutputShape_same l H W C hmode hs0 hs1 hH hW
  refine ⟨h, ?_, ?_⟩ <;> rw [h] <;> rintro ⟨m, hm⟩ <;> simp <;> omega

/-- Witness for C1 at `poolSize = strides = (2,2)`, input `5 × 5 × 1`:
total padding is `1` (odd) per axis, and the split is `(0, 1)`. -/
theorem c1_witness :
    (("same" : String) = "same") ∧ (0 < 2) ∧ (0 < 5) ∧
    Odd (samePadTotal 5 2 2) ∧
    C1Statement ⟨(2, 2), (2, 2), "same", "tf", "max"⟩ 5 5 1 :=
  ⟨rfl, by decide, by decide, by decide,
    c1_same_shape_and_padding_split ⟨(2, 2), (2, 2), "same", "tf", "max"⟩
      5 5 1 rfl (by decide) (by decide) (by decide) (by decide) (by decide)
      (by decide)⟩

/-- C2: in `'valid'` mode, for positive window/stride components,
`_calcOutputShape` returns `outH = ⌊(H - kh + sh)/sh⌋`,
`outW = ⌊(W - kw + sw)/sw⌋` and all four padding fields are `0`. -/
theorem c2_valid_shape_no_padding (l : PoolLayer) (H W C : ℕ)
    (hmode : l.borderMode = "valid")
    (_hk0 : 0 < l.poolSize.1) (_hk1 : 0 < l.poolSize.2)
    (_hs0 : 0 < l.strides.1) (_hs1 : 0 < l.strides.2) :
    calcOutputShape l H W C =
      ((Int.fdiv ((H : ℤ) - l.poolSize.1 + l.strides.1) l.strides.1,
        Int.fdiv ((W : ℤ) - l.poolSize.2 + l.strides.2) l.strides.2, C),
       (0, 0, 0, 0)) :=
  calcOutputShape_valid l H W C hmode

/-- Witness for C2 at `poolSize = strides = (2,2)`, input `4 × 4 × 1`. -/
theorem c2_witness :
    (("valid" : String) = "valid") ∧ (0 < 2) ∧
    calcOutputShape ⟨(2, 2), (2, 2), "valid", "tf", "max"⟩ 4 4 1 =
      ((2, 2, 1), (0, 0, 0, 0)) :=
  ⟨rfl, by decide,
    c2_valid_shape_no_padding ⟨(2, 2), (2, 2), "valid", "tf", "max"⟩ 4 4 1
      rfl (by decide) (by decide) (by decide) (by decide)⟩

/-- The property claimed by C5, about `_padInput` in `'same'` mode: padded
shape, the original copied into the offset region, and every other cell of
the padded tensor filled with `-Infinity` for `max` and `0` for `average`. -/
def C5Statement (func : String) (rb ra cb ca : ℕ) (x : Tensor3) : Prop :=
  (padInput func rb ra cb ca "same" x).1.rows = x.rows + rb + ra ∧
  (padInput func rb ra cb ca "same" x).1.cols = x.cols + cb + ca ∧
  (padInput func rb ra cb ca "same" x).1.channels = x.channels ∧
  (∀ i j c, i < x.rows → j < x.cols → c < x.channels →
    (padInput func rb ra cb ca "same" x).1.data (rb + i) (cb + j) c =
      x.data i j c) ∧
  (∀ i j c, i < x.rows + rb + ra → j < x.cols + cb + ca → c < x.channels →
    ¬(rb ≤ i ∧ i < rb + x.rows ∧ cb ≤ j ∧ j < cb + x.cols) →
    (padInput func rb ra cb ca "same" x).1.data i j c =
      if func = "max" then JSNum.negInf else JSNum.val 0)

/-- C5: in `'same'` mode with positive total padding, `_padInput` produces a
tensor of the padded shape, copies the input into the offset region
`[rb, rb + H) × [cb, cb + W) × [0, C)`, and fills every remaining cell with
`-Infinity` for the `max` reducer and `0` for `average`. -/
theorem c5_pad_contents (func : String) (rb ra cb ca : ℕ) (x : Tensor3)
    (_hpos : 0 < rb + ra + cb + ca)
    (_hfunc : func = "max" ∨ func = "average") :
    C5Statement func rb ra cb ca x := by
  simp only [C5Statement, padInput, show ("same" == "same") = true from rfl,
    if_true]
  refine ⟨trivial, trivial, trivial, ?_, ?_⟩
  · intro i j c hi hj hc
    rw [if_pos ⟨by omega, by omega, by omega, by omega, hc⟩,
      Nat.add_sub_cancel_left, Nat.add_sub_cancel_left]
  · intro i j c _hi _hj hc hnot
    rw [if_neg fun hcond =>
      hnot ⟨hcond.1, hcond.2.1, hcond.2.2.1, hcond.2.2.2.1⟩]
    simp [beq_iff_eq]

/-- Witness for C5: `max` pooling, padding `(0,1,0,1)`, `1 × 1 × 1` input. -/
theorem c5_witness :
    (0 < 0 + 1 + 0 + 1) ∧ (("max" : String) = "max" ∨ ("max" : String) = "average") ∧
    C5Statement "max" 0 1 0 1 ⟨1, 1, 1, fun _ _ _ => JSNum.val 7⟩ :=
  ⟨by decide, Or.inl rfl,
    c5_pad_contents "max" 0 1 0 1 ⟨1, 1, 1, fun _ _ _ => JSNum.val 7⟩
      (by decide) (Or.inl rfl)⟩

/-- The amended property for C6: `_padInput` is a true no-op (same contents
and same backing storage) when the border mode is `'valid'`; when the mode is
`'same'` and the total padding is zero the contents are unchanged but a
freshly allocated backing store is assigned to the caller's handle. -/
def C6Statement (func : String) (rb ra cb ca : ℕ) (x : Tensor3) : Prop :=
  (padInput func rb ra cb ca "valid" x = (x, false)) ∧
  (rb + ra + cb + ca = 0 →
    (padInput func rb ra cb ca "same" x).2 = true ∧
    (padInput func rb ra cb ca "same" x).1.rows = x.rows ∧
    (padInput func rb ra cb ca "same" x).1.cols = x.cols ∧
    (padInput func rb ra cb ca "same" x).1.channels = x.channels ∧
    ∀ i j c, i < x.rows → j < x.cols → c < x.channels →
      (padInput func rb ra cb ca "same" x).1.data i j c = x.data i j c)

/-- C6 (amended): with `'valid'` border mode `_padInput` returns the caller's
tensor itself, untouched; with `'same'` mode and zero total padding the
content is unchanged but the backing storage is still replaced by a fresh
copy (the claim's "backing storage reference unchanged" fails there). -/
theorem c6_noop_amended (func : String) (rb ra cb ca : ℕ) (x : Tensor3) :
    C6Statement func rb ra cb ca x := by
  refine ⟨rfl, fun hz => ?_⟩
  have hrb : rb = 0 := by omega
  have hra : ra = 0 := by omega
  have hcb : cb = 0 := by omega
  have hca : ca = 0 := by omega
  subst hrb hra hcb hca
  simp only [padInput, show ("same" == "same") = true from rfl, if_true]
  refine ⟨trivial, by simp, by simp, trivial, ?_⟩
  intro i j c hi hj hc
  rw [if_pos ⟨by omega, by omega, by omega, by omega, hc⟩]
  simp

/-- Witness for C6 at zero padding on a `2 × 2 × 1` tensor. -/
theorem c6_witness :
    (0 + 0 + 0 + 0 = 0) ∧
    C6Statement "max" 0 0 0 0 ⟨2, 2, 1, fun _ _ _ => JSNum.val 1⟩ :=
  ⟨rfl, c6_noop_amended "max" 0 0 0 0 ⟨2, 2, 1, fun _ _ _ => JSNum.val 1⟩⟩

/-- Counterexample to C6 as stated: with `'same'` mode, `2 × 2` input,
`2 × 2` window and stride, the derived total padding is zero, yet
`_padInput` still allocates a fresh padded tensor and assigns it to the
caller's handle — the backing storage reference does change. -/
theorem c6_counterexample :
    calcOutputShape ⟨(2, 2), (2, 2), "same", "tf", "max"⟩ 2 2 1 =
      ((1, 1, 1), (0, 0, 0, 0)) ∧
    (padInput "max" 0 0 0 0 "same"
      ⟨2, 2, 1, fun _ _ _ => JSNum.val 1⟩).2 = true := by
  exact ⟨by decide, rfl⟩

/-- C7: `call` fails, with the `InvalidConfiguration` error, exactly when the
configured pooling function is neither `max` nor `average`; and when it
fails the result is the same for every input tensor — nothing of the shape
derivation, padding or reduction influences it. -/
theorem c7_invalid_reducer_error (l : PoolLayer) (x : Tensor3) :
    (poolingCall l x =
        Except.error
          "[pooling._Pooling2D] pooling function must be max or average." ↔
      (l.poolingFunc ≠ "max" ∧ l.poolingFunc ≠ "average")) ∧
    ((l.poolingFunc ≠ "max" ∧ l.poolingFunc ≠ "average") →
      ∀ x' : Tensor3, poolingCall l x' = poolingCall l x) := by
  by_cases h : l.poolingFunc ≠ "max" ∧ l.poolingFunc ≠ "average" <;>
    simp [poolingCall, h]

/-- C9: the `_Pooling2D` constructor sets the pooling function to `max`
unconditionally — any `poolingFunc` attribute is ignored — so for a layer
built by the public constructor the `InvalidConfiguration` branch of `call`
is unreachable. -/
theorem c9_constructor_forces_max (attrs : PoolAttrs) (x : Tensor3) :
    (poolingConstructor attrs).poolingFunc = "max" ∧
    ∃ y, poolingCall (poolingConstructor attrs) x = Except.ok y := by
  refine ⟨rfl, ?_⟩
  simp [poolingCall, poolingConstructor]

/-- C10: the base `Layer.call` is the identity — it returns the very tensor
it was given and leaves the layer state untouched. -/
theorem c10_base_layer_call_identity (l : LayerState) (x : Tensor3) :
    layerCall l x = (l, x) := rfl

/-- The property claimed by C8: the `th`-ordering transpose pair is
self-inverse; a `th` call is exactly the `tf` call on the transposed input
with the result transposed back (a pure layout transform); and the output of
a `th` call has channels leading again, with the same channel count as the
`(C, H, W)` input. -/
def C8Statement (l : PoolLayer) (x : Tensor3) : Prop :=
  (∀ t : Tensor3, transpose201 (transpose120 t) = t) ∧
  poolingCall l x =
    Except.map transpose201
      (poolingCall { l with dimOrdering := "tf" } (transpose120 x)) ∧
  ∃ y, poolingCall l x = Except.ok y ∧ y.rows = x.rows

/-- C8: for a channels-first (`th`) layer, `call` transposes `(C, H, W)` to
`(H, W, C)`, runs the channels-last pipeline, and transposes back; the
transpose pair is self-inverse with no numeric effect, and the output again
has `C` channels as its leading axis. -/
theorem calcOutputShape_ordering_irrel (l : PoolLayer) (o : String)
    (H W C : ℕ) :
    calcOutputShape { l with dimOrdering := o } H W C =
      calcOutputShape l H W C := rfl

theorem calcOutputShape_channels (l : PoolLayer) (H W C : ℕ) :
    (calcOutputShape l H W C).1.2.2 = C := rfl

theorem c8_th_ordering_roundtrip (l : PoolLayer) (x : Tensor3)
    (hord : l.dimOrdering = "th")
    (hfunc : l.poolingFunc = "max" ∨ l.poolingFunc = "average") :
    C8Statement l x := by
  refine ⟨fun t => rfl, ?_, ?_⟩
  · by_cases hg : l.poolingFunc ≠ "max" ∧ l.poolingFunc ≠ "average" <;>
      simp [poolingCall, hg, hord, Except.map, calcOutputShape_ordering_irrel,
        show ("th" == "th") = true from rfl,
        show ("tf" == "th") = false from rfl]
  · rcases hfunc with h | h <;>
      simp [poolingCall, h, hord, transpose201, transpose120, poolOutput,
        calcOutputShape_channels, show ("th" == "th") = true from rfl]

/-- Witness for C8: a `2 × 3 × 3` channels-first tensor through a `valid`
max-pooling layer. -/
theorem c8_witness :
    (("th" : String) = "th") ∧
    (("max" : String) = "max" ∨ ("max" : String) = "average") ∧
    C8Statement ⟨(2, 2), (2, 2), "valid", "th", "max"⟩
      ⟨2, 3, 3, fun c i j => JSNum.val (100 * c + 10 * i + j)⟩ :=
  ⟨rfl, Or.inl rfl,
    c8_th_ordering_roundtrip ⟨(2, 2), (2, 2), "valid", "th", "max"⟩
      ⟨2, 3, 3, fun c i j => JSNum.val (100 * c + 10 * i + j)⟩ rfl
      (Or.inl rfl)⟩

/-! ## Counting the reduction loop's iterations (C4) -/

theorem filter_le_range (D n : ℕ) :
    (List.range n).filter (fun m => m ≤ D) = List.range (min (D + 1) n) := by
  induction n with
  | zero => rfl
  | succ n ih =>
    rw [List.range_succ, List.filter_append, ih]
    by_cases h : n ≤ D
    · have h1 : min (D + 1) n = n := by omega
      have h2 : min (D + 1) (n + 1) = n + 1 := by omega
      simp only [h1, h2, List.filter_cons, decide_eq_true_eq, h, if_true,
        List.filter_nil, List.range_succ]
    · have h1 : min (D + 1) n = min (D + 1) (n + 1) := by omega
      simp only [List.filter_cons, decide_eq_true_eq, h, if_false,
        List.filter_nil, List.append_nil, h1]

theorem windowStarts_length (n k s : ℕ) (hk : 0 < k) (hs : 0 < s) :
    (windowStarts n k s).length =
      if k ≤ n then (n - k) / s + 1 else 0 := by
  rw [windowStarts, List.length_map]
  by_cases hkn : k ≤ n
  · rw [if_pos hkn]
    have hcongr : ∀ m ∈ List.range n,
        (decide (m * s + k ≤ n)) = (decide (m ≤ (n - k) / s)) := by
      intro m _
      have : m * s + k ≤ n ↔ m ≤ (n - k) / s := by
        rw [Nat.le_div_iff_mul_le hs]
        omega
      simp [this]
    rw [List.filter_congr hcongr, filter_le_range]
    have hD : (n - k) / s + 1 ≤ n := by
      have h1 : (n - k) / s ≤ n - k := Nat.div_le_self _ _
      omega
    rw [List.length_range]
    omega
  · rw [if_neg hkn]
    have hcongr : ∀ m ∈ List.range n,
        (decide (m * s + k ≤ n)) = (decide (m ≤ 0) && decide False) := by
      intro m _
      have : ¬(m * s + k ≤ n) := by omega
      simp [this]
    rw [List.filter_congr hcongr]
    simp

theorem windowStarts_mem (n k s : ℕ) (hk : 0 < k) (hs : 0 < s) (i : ℕ) :
    i ∈ windowStarts n k s ↔ s ∣ i ∧ i + k ≤ n := by
  rw [windowStarts]
  simp only [List.mem_map, List.mem_filter, List.mem_range,
    decide_eq_true_eq]
  constructor
  · rintro ⟨m, ⟨_, hcond⟩, rfl⟩
    exact ⟨dvd_mul_left s m, hcond⟩
  · rintro ⟨⟨c, rfl⟩, hle⟩
    refine ⟨c, ⟨?_, ?_⟩, mul_comm c s⟩ <;> nlinarith

theorem windowStarts_length_same (len k s : ℕ) (hk : 0 < k) (hs : 0 < s)
    (hl : 0 < len) :
    (windowStarts (len + samePadTotal len k s) k s).length =
      sameOutDim len s := by
  have hQ := one_le_sameOutDim len s hs hl
  rw [windowStarts_length _ k s hk hs]
  set Q := sameOutDim len s with hQdef
  have hq : Q = (len - 1) / s + 1 := by
    rw [hQdef, sameOutDim, show len + s - 1 = (len - 1) + s by omega,
      Nat.add_div_right _ hs]
  rw [samePadTotal, ← hQdef]
  by_cases hcase : len ≤ (Q - 1) * s + k
  · rw [show len + ((Q - 1) * s + k - len) = (Q - 1) * s + k by omega,
      if_pos (by omega), Nat.add_sub_cancel, Nat.mul_div_cancel _ hs]
    omega
  · rw [show (Q - 1) * s + k - len = 0 by omega, Nat.add_zero,
      if_pos (by omega)]
    have hlow : Q - 1 ≤ (len - k) / s := by
      rw [Nat.le_div_iff_mul_le hs]
      omega
    have hhigh : (len - k) / s ≤ (len - 1) / s :=
      Nat.div_le_div_right (by omega)
    omega

theorem windowStarts_length_valid (len k s : ℕ) (hk : 0 < k) (hs : 0 < s)
    (hnn : 0 ≤ Int.fdiv ((len : ℤ) - k + s) s) :
    ((windowStarts len k s).length : ℤ) =
      Int.fdiv ((len : ℤ) - k + s) s := by
  rw [windowStarts_length len k s hk hs]
  by_cases hkl : k ≤ len
  · rw [if_pos hkl, show (len : ℤ) - k + s = ((len - k + s : ℕ) : ℤ) by omega,
      fdiv_natCast, Nat.add_div_right _ hs]
  · rw [if_neg hkl]
    by_cases ha : 0 ≤ (len : ℤ) - k + s
    · rw [show (len : ℤ) - k + s = ((len + s - k : ℕ) : ℤ) by omega,
        fdiv_natCast]
      have : (len + s - k) / s = 0 := Nat.div_eq_of_lt (by omega)
      rw [this]
    · have hspos : (0 : ℤ) < (s : ℤ) := by exact_mod_cast hs
      have hneg : Int.fdiv ((len : ℤ) - k + s) s < 0 :=
        Int.fdiv_neg' (by omega) hspos
      omega

/-- The padded working tensor exactly as `call` wires it for a
channels-last input: `_padInput` applied with the `PaddingSpec` derived by
`_calcOutputShape` on the input's own shape. -/
def paddedInput (l : PoolLayer) (x : Tensor3) : Tensor3 :=
  (padInput l.poolingFunc
    (calcOutputShape l x.rows x.cols x.channels).2.1.toNat
    (calcOutputShape l x.rows x.cols x.channels).2.2.1.toNat
    (calcOutputShape l x.rows x.cols x.channels).2.2.2.1.toNat
    (calcOutputShape l x.rows x.cols x.channels).2.2.2.2.toNat
    l.borderMode x).1

theorem padInput_not_same (func : String) (rb ra cb ca : ℕ) (bm : String)
    (x : Tensor3) (h : (bm == "same") = false) :
    padInput func rb ra cb ca bm x = (x, false) := by
  rw [padInput, h]
  simp

theorem paddedInput_valid (l : PoolLayer) (x : Tensor3)
    (hm : l.borderMode = "valid") : paddedInput l x = x := by
  rw [paddedInput, hm, padInput_not_same _ _ _ _ _ "valid" x rfl]

theorem paddedInput_same_rows (l : PoolLayer) (x : Tensor3)
    (hm : l.borderMode = "same")
    (hs0 : 0 < l.strides.1) (hs1 : 0 < l.strides.2)
    (hH : 0 < x.rows) (hW : 0 < x.cols) :
    (paddedInput l x).rows =
      x.rows + samePadTotal x.rows l.poolSize.1 l.strides.1 := by
  rw [paddedInput, hm,
    calcOutputShape_same l x.rows x.cols x.channels hm hs0 hs1 hH hW,
    padInput]
  simp only [show ("same" == "same") = true from rfl, if_true]
  simp only [Int.toNat_natCast, Int.toNat_sub]
  omega

theorem paddedInput_same_cols (l : PoolLayer) (x : Tensor3)
    (hm : l.borderMode = "same")
    (hs0 : 0 < l.strides.1) (hs1 : 0 < l.strides.2)
    (hH : 0 < x.rows) (hW : 0 < x.cols) :
    (paddedInput l x).cols =
      x.cols + samePadTotal x.cols l.poolSize.2 l.strides.2 := by
  rw [paddedInput, hm,
    calcOutputShape_same l x.rows x.cols x.channels hm hs0 hs1 hH hW,
    padInput]
  simp only [show ("same" == "same") = true from rfl, if_true]
  simp only [Int.toNat_natCast, Int.toNat_sub]
  omega

/-- The property claimed by C4 (amended by the nonnegativity hypotheses of
the theorem): the reduction loop visits exactly the row starts
`0, sh, 2·sh, …` with `i + kh ≤ paddedH` (likewise for columns), and the
number of visited `(i, j)` window positions equals `outH × outW` from the
shape derivation. -/
def C4Statement (l : PoolLayer) (x : Tensor3) : Prop :=
  (∀ i, i ∈ windowStarts (paddedInput l x).rows l.poolSize.1 l.strides.1 ↔
    l.strides.1 ∣ i ∧ i + l.poolSize.1 ≤ (paddedInput l x).rows) ∧
  (∀ j, j ∈ windowStarts (paddedInput l x).cols l.poolSize.2 l.strides.2 ↔
    l.strides.2 ∣ j ∧ j + l.poolSize.2 ≤ (paddedInput l x).cols) ∧
  (((windowStarts (paddedInput l x).rows l.poolSize.1 l.strides.1).length *
      (windowStarts (paddedInput l x).cols l.poolSize.2
        l.strides.2).length : ℕ) : ℤ) =
    (calcOutputShape l x.rows x.cols x.channels).1.1 *
      (calcOutputShape l x.rows x.cols x.channels).1.2.1

/-- C4 (amended): in both padding modes the loop visits row starts
`0, sh, …` while `i + kh ≤ paddedH` (same for columns), and — provided the
derived output dimensions are nonnegative, which always holds in `'same'`
mode but can fail in `'valid'` mode — the number of visited window positions
equals `outH × outW` from `_calcOutputShape`. -/
theorem c4_iteration_count (l : PoolLayer) (x : Tensor3)
    (hmode : l.borderMode = "valid" ∨ l.borderMode = "same")
    (hk0 : 0 < l.poolSize.1) (hk1 : 0 < l.poolSize.2)
    (hs0 : 0 < l.strides.1) (hs1 : 0 < l.strides.2)
    (hH : 0 < x.rows) (hW : 0 < x.cols)
    (hout1 : 0 ≤ (calcOutputShape l x.rows x.cols x.channels).1.1)
    (hout2 : 0 ≤ (calcOutputShape l x.rows x.cols x.channels).1.2.1) :
    C4Statement l x := by
  refine ⟨fun i => windowStarts_mem _ _ _ hk0 hs0 i,
    fun j => windowStarts_mem _ _ _ hk1 hs1 j, ?_⟩
  rcases hmode with hm | hm
  · have hcalc := calcOutputShape_valid l x.rows x.cols x.channels hm
    rw [paddedInput_valid l x hm] at *
    rw [hcalc] at hout1 hout2 ⊢
    simp only at hout1 hout2 ⊢
    rw [Nat.cast_mul,
      windowStarts_length_valid x.rows l.poolSize.1 l.strides.1 hk0 hs0 hout1,
      windowStarts_length_valid x.cols l.poolSize.2 l.strides.2 hk1 hs1 hout2]
  · have hcalc := calcOutputShape_same l x.rows x.cols x.channels hm hs0 hs1
      hH hW
    rw [paddedInput_same_rows l x hm hs0 hs1 hH hW,
      paddedInput_same_cols l x hm hs0 hs1 hH hW, hcalc,
      windowStarts_length_same x.rows l.poolSize.1 l.strides.1 hk0 hs0 hH,
      windowStarts_length_same x.cols l.poolSize.2 l.strides.2 hk1 hs1 hW]
    push_cast
    rfl

/-- Witness for C4: `'same'` mode, `5 × 5 × 1` input, `2 × 2` window and
stride (9 window positions, output `3 × 3`). -/
theorem c4_witness :
    (("same" : String) = "valid" ∨ ("same" : String) = "same") ∧ (0 < 2) ∧
    (0 < 5) ∧
    (0 ≤ (calcOutputShape ⟨(2, 2), (2, 2), "same", "tf", "max"⟩ 5 5 1).1.1) ∧
    C4Statement ⟨(2, 2), (2, 2), "same", "tf", "max"⟩
      ⟨5, 5, 1, fun _ _ _ => JSNum.val 1⟩ :=
  ⟨Or.inr rfl, by decide, by decide, by decide,
    c4_iteration_count ⟨(2, 2), (2, 2), "same", "tf", "max"⟩
      ⟨5, 5, 1, fun _ _ _ => JSNum.val 1⟩ (Or.inr rfl) (by decide) (by decide)
      (by decide) (by decide) (by decide) (by decide) (by decide) (by decide)⟩

/-- Counterexample to C4 as stated: `'valid'` mode, `1 × 1` input, `5 × 5`
window, stride `2`.  The derived output dims are `-1 × -1`, whose product is
`1`, yet the loop visits `0` window positions — the claimed equality fails
(the spec's own open question acknowledges the zero-iteration behaviour). -/
theorem c4_counterexample :
    (calcOutputShape ⟨(5, 5), (2, 2), "valid", "tf", "max"⟩ 1 1 1).1.1 = -1 ∧
    (windowStarts
      (paddedInput ⟨(5, 5), (2, 2), "valid", "tf", "max"⟩
        ⟨1, 1, 1, fun _ _ _ => JSNum.val 0⟩).rows 5 2).length = 0 ∧
    ¬(((windowStarts
          (paddedInput ⟨(5, 5), (2, 2), "valid", "tf", "max"⟩
            ⟨1, 1, 1, fun _ _ _ => JSNum.val 0⟩).rows 5 2).length *
        (windowStarts
          (paddedInput ⟨(5, 5), (2, 2), "valid", "tf", "max"⟩
            ⟨1, 1, 1, fun _ _ _ => JSNum.val 0⟩).cols 5 2).length : ℕ) : ℤ) =
      (calcOutputShape ⟨(5, 5), (2, 2), "valid", "tf", "max"⟩ 1 1 1).1.1 *
        (calcOutputShape ⟨(5, 5), (2, 2), "valid", "tf", "max"⟩ 1 1 1).1.2.1 := by
  refine ⟨by decide, ?_, ?_⟩ <;> rw [paddedInput_valid _ _ rfl] <;> decide

/-! ## Average pooling and the per-window padding counts (C3) -/

theorem sameOutDim_eq (len s : ℕ) (hs : 0 < s) (hl : 0 < len) :
    sameOutDim len s = (len - 1) / s + 1 := by
  rw [sameOutDim, show len + s - 1 = (len - 1) + s by omega,
    Nat.add_div_right _ hs]

/-- The derived `'same'` total padding is always smaller than the window
extent (so a window can overlap both padding bands only if the window is
larger than the unpadded input). -/
theorem samePadTotal_lt (len k s : ℕ) (hs : 0 < s) (hl : 0 < len)
    (hk : 0 < k) : samePadTotal len k s < k := by
  have hq := sameOutDim_eq len s hs hl
  have h2 : ((len - 1) / s) * s ≤ len - 1 := Nat.div_mul_le_self _ _
  rw [samePadTotal, hq, Nat.add_sub_cancel]
  omega

/-- When the window is no larger than the unpadded input, the code's
`if/else-if` padding count agrees with the spec's full band overlap. -/
theorem nbInPadding_eq_spec (i k b a len : ℕ)
    (hba : b + a < k) (hkl : k ≤ len) (hwin : i + k ≤ len + b + a) :
    nbInPadding i k b a (len + b + a) =
      ((specInPadding i k b a (len + b + a) : ℕ) : ℤ) := by
  rw [nbInPadding, specInPadding, bandOverlap, bandOverlap]
  split_ifs <;> omega

theorem specInPadding_le (i k b a H : ℕ) :
    specInPadding i k b a (H + b + a) ≤ b + a := by
  rw [specInPadding, bandOverlap, bandOverlap]
  omega

theorem filter_range_interval (n i A B : ℕ) :
    (Finset.range n).filter (fun m => A ≤ i + m ∧ i + m < B) =
      Finset.Ico (A - i) (min (B - i) n) := by
  ext m
  simp only [Finset.mem_filter, Finset.mem_range, Finset.mem_Ico]
  omega

/-- The number of genuine cells in a window equals the spec's effective
cell count, provided the window fits and is no larger than the input. -/
theorem genuineCells_card (i j kh kw rb ra cb ca H W : ℕ)
    (hrow : rb + ra < kh) (hkh : kh ≤ H) (hwinr : i + kh ≤ H + rb + ra)
    (hcol : cb + ca < kw) (hkw : kw ≤ W) (hwinc : j + kw ≤ W + cb + ca) :
    (genuineCells i j kh kw rb cb H W).card =
      specEffectiveCells i j kh kw rb ra cb ca (H + rb + ra) (W + cb + ca) := by
  rw [genuineCells,
    Finset.filter_product (fun a => rb ≤ i + a ∧ i + a < rb + H)
      (fun b => cb ≤ j + b ∧ j + b < cb + W),
    Finset.card_product, filter_range_interval, filter_range_interval,
    Nat.card_Ico, Nat.card_Ico, specEffectiveCells]
  have h1 : min (rb + H - i) kh - (rb - i) =
      kh - specInPadding i kh rb ra (H + rb + ra) := by
    rw [specInPadding, bandOverlap, bandOverlap]
    omega
  have h2 : min (cb + W - j) kw - (cb - j) =
      kw - specInPadding j kw cb ca (W + cb + ca) := by
    rw [specInPadding, bandOverlap, bandOverlap]
    omega
  rw [h1, h2]

/-- In `'average'` mode the padding fill is zero, so the window sum over the
padded tensor equals the sum of the genuine input values in the window. -/
theorem windowSum_padded_eq_genuine (x : Tensor3) (kh kw i j c rb ra cb ca : ℕ)
    (hc : c < x.channels) :
    windowSum (padInput "average" rb ra cb ca "same" x).1 kh kw i j c =
      genuineSum x i j kh kw rb cb c := by
  rw [windowSum, ← Finset.sum_product']
  rw [genuineSum, genuineCells, Finset.sum_filter]
  apply Finset.sum_congr rfl
  intro p _
  simp only [padInput, show ("same" == "same") = true from rfl, if_true]
  by_cases hcond : (rb ≤ i + p.1 ∧ i + p.1 < rb + x.rows) ∧
      (cb ≤ j + p.2 ∧ j + p.2 < cb + x.cols)
  · rw [if_pos ⟨hcond.1.1, hcond.1.2, hcond.2.1, hcond.2.2, hc⟩, if_pos hcond]
  · rw [if_neg fun hfull =>
      hcond ⟨⟨hfull.1, hfull.2.1⟩, hfull.2.2.1, hfull.2.2.2.1⟩, if_neg hcond]
    rfl

/-- `paddingRowBefore` as `call` passes it to the reduction loop. -/
def derivedRowBefore (l : PoolLayer) (x : Tensor3) : ℕ :=
  (calcOutputShape l x.rows x.cols x.channels).2.1.toNat

/-- `paddingRowAfter` as `call` passes it to the reduction loop. -/
def derivedRowAfter (l : PoolLayer) (x : Tensor3) : ℕ :=
  (calcOutputShape l x.rows x.cols x.channels).2.2.1.toNat

/-- `paddingColBefore` as `call` passes it to the reduction loop. -/
def derivedColBefore (l : PoolLayer) (x : Tensor3) : ℕ :=
  (calcOutputShape l x.rows x.cols x.channels).2.2.2.1.toNat

/-- `paddingColAfter` as `call` passes it to the reduction loop. -/
def derivedColAfter (l : PoolLayer) (x : Tensor3) : ℕ :=
  (calcOutputShape l x.rows x.cols x.channels).2.2.2.2.toNat

theorem paddedInput_channels (l : PoolLayer) (x : Tensor3) :
    (paddedInput l x).channels = x.channels := by
  rw [paddedInput, padInput]
  split
  · rfl
  · rfl

theorem poolCell_average (kh kw rb ra cb ca : ℕ) (xp : Tensor3)
    (i j c : ℕ) :
    poolCell "average" kh kw rb ra cb ca xp i j c =
      JSNum.jdiv (windowSum xp kh kw i j c)
        (((kh : ℤ) - nbInPadding i kh rb ra xp.rows) *
          ((kw : ℤ) - nbInPadding j kw cb ca xp.cols)) := rfl

/-- The property claimed by C3 (amended by the `window ≤ input` hypotheses
of the theorem): every visited `'average'` output cell equals the window sum
divided by the spec's effective cell count — `(kh − rowsInPadding) ×
(kw − colsInPadding)` with the *full* band overlaps — and that in turn is
exactly the mean of the genuine (non-padded) input values in the window. -/
def C3Statement (l : PoolLayer) (x : Tensor3) : Prop :=
  ∀ _i _j c i j,
    (windowStarts (paddedInput l x).rows l.poolSize.1 l.strides.1)[_i]? =
      some i →
    (windowStarts (paddedInput l x).cols l.poolSize.2 l.strides.2)[_j]? =
      some j →
    c < x.channels →
    ((poolOutput l.poolingFunc l.poolSize.1 l.poolSize.2 l.strides.1
        l.strides.2 (derivedRowBefore l x) (derivedRowAfter l x)
        (derivedColBefore l x) (derivedColAfter l x)
        (calcOutputShape l x.rows x.cols x.channels).1
        (paddedInput l x)).data _i _j c =
      JSNum.jdiv (windowSum (paddedInput l x) l.poolSize.1 l.poolSize.2 i j c)
        ((specEffectiveCells i j l.poolSize.1 l.poolSize.2
          (derivedRowBefore l x) (derivedRowAfter l x)
          (derivedColBefore l x) (derivedColAfter l x)
          (paddedInput l x).rows (paddedInput l x).cols : ℕ) : ℤ)) ∧
    ((poolOutput l.poolingFunc l.poolSize.1 l.poolSize.2 l.strides.1
        l.strides.2 (derivedRowBefore l x) (derivedRowAfter l x)
        (derivedColBefore l x) (derivedColAfter l x)
        (calcOutputShape l x.rows x.cols x.channels).1
        (paddedInput l x)).data _i _j c =
      JSNum.jdiv (genuineSum x i j l.poolSize.1 l.poolSize.2
          (derivedRowBefore l x) (derivedColBefore l x) c)
        (((genuineCells i j l.poolSize.1 l.poolSize.2 (derivedRowBefore l x)
            (derivedColBefore l x) x.rows x.cols).card : ℕ) : ℤ)) ∧
    (genuineCells i j l.poolSize.1 l.poolSize.2 (derivedRowBefore l x)
        (derivedColBefore l x) x.rows x.cols).card =
      specEffectiveCells i j l.poolSize.1 l.poolSize.2
        (derivedRowBefore l x) (derivedRowAfter l x)
        (derivedColBefore l x) (derivedColAfter l x)
        (paddedInput l x).rows (paddedInput l x).cols

/-- C3 (amended): in an `'average'` call in `'same'` mode with the window no
larger than the input (`kh ≤ H`, `kw ≤ W` — so no window straddles both
padding bands), every output cell equals the window sum divided by
`(kh − rowsInPaddingForThisWindow) × (kw − colsInPaddingForThisWindow)`
where the counts are the full overlaps with the `before`/`after` bands, and
border windows average only over genuine input values. -/
theorem c3_average_excludes_padding (l : PoolLayer) (x : Tensor3)
    (hm : l.borderMode = "same") (hfunc : l.poolingFunc = "average")
    (hk0 : 0 < l.poolSize.1) (hk1 : 0 < l.poolSize.2)
    (hs0 : 0 < l.strides.1) (hs1 : 0 < l.strides.2)
    (hkh : l.poolSize.1 ≤ x.rows) (hkw : l.poolSize.2 ≤ x.cols) :
    C3Statement l x := by
  intro _i _j c i j h_i h_j hc
  have hH : 0 < x.rows := lt_of_lt_of_le hk0 hkh
  have hW : 0 < x.cols := lt_of_lt_of_le hk1 hkw
  have hcalc := calcOutputShape_same l x.rows x.cols x.channels hm hs0 hs1
    hH hW
  have hrb : derivedRowBefore l x =
      samePadTotal x.rows l.poolSize.1 l.strides.1 / 2 := by
    rw [derivedRowBefore, hcalc]
    exact Int.toNat_natCast _
  have hra : derivedRowAfter l x =
      samePadTotal x.rows l.poolSize.1 l.strides.1 -
        samePadTotal x.rows l.poolSize.1 l.strides.1 / 2 := by
    rw [derivedRowAfter, hcalc]
    exact Int.toNat_sub _ _
  have hcb : derivedColBefore l x =
      samePadTotal x.cols l.poolSize.2 l.strides.2 / 2 := by
    rw [derivedColBefore, hcalc]
    exact Int.toNat_natCast _
  have hca : derivedColAfter l x =
      samePadTotal x.cols l.poolSize.2 l.strides.2 -
        samePadTotal x.cols l.poolSize.2 l.strides.2 / 2 := by
    rw [derivedColAfter, hcalc]
    exact Int.toNat_sub _ _
  have hpr := samePadTotal_lt x.rows l.poolSize.1 l.strides.1 hs0 hH hk0
  have hpc := samePadTotal_lt x.cols l.poolSize.2 l.strides.2 hs1 hW hk1
  have hbar : derivedRowBefore l x + derivedRowAfter l x =
      samePadTotal x.rows l.poolSize.1 l.strides.1 := by
    rw [hrb, hra]
    omega
  have hbac : derivedColBefore l x + derivedColAfter l x =
      samePadTotal x.cols l.poolSize.2 l.strides.2 := by
    rw [hcb, hca]
    omega
  have hxr : (paddedInput l x).rows =
      x.rows + derivedRowBefore l x + derivedRowAfter l x := by
    rw [paddedInput_same_rows l x hm hs0 hs1 hH hW]
    omega
  have hxc : (paddedInput l x).cols =
      x.cols + derivedColBefore l x + derivedColAfter l x := by
    rw [paddedInput_same_cols l x hm hs0 hs1 hH hW]
    omega
  have hwini : i + l.poolSize.1 ≤ (paddedInput l x).rows :=
    ((windowStarts_mem _ _ _ hk0 hs0 i).1 (List.getElem?_mem h_i)).2
  have hwinj : j + l.poolSize.2 ≤ (paddedInput l x).cols :=
    ((windowStarts_mem _ _ _ hk1 hs1 j).1 (List.getElem?_mem h_j)).2
  rw [hxr] at hwini
  rw [hxc] at hwinj
  have hcell : (poolOutput l.poolingFunc l.poolSize.1 l.poolSize.2
      l.strides.1 l.strides.2 (derivedRowBefore l x) (derivedRowAfter l x)
      (derivedColBefore l x) (derivedColAfter l x)
      (calcOutputShape l x.rows x.cols x.channels).1
      (paddedInput l x)).data _i _j c =
      poolCell l.poolingFunc l.poolSize.1 l.poolSize.2
        (derivedRowBefore l x) (derivedRowAfter l x)
        (derivedColBefore l x) (derivedColAfter l x)
        (paddedInput l x) i j c := by
    simp only [poolOutput, h_i, h_j, paddedInput_channels]
    rw [if_pos hc]
  have hnbr : nbInPadding i l.poolSize.1 (derivedRowBefore l x)
      (derivedRowAfter l x)
      (x.rows + derivedRowBefore l x + derivedRowAfter l x) =
      ((specInPadding i l.poolSize.1 (derivedRowBefore l x)
        (derivedRowAfter l x)
        (x.rows + derivedRowBefore l x + derivedRowAfter l x) : ℕ) : ℤ) :=
    nbInPadding_eq_spec i l.poolSize.1 (derivedRowBefore l x)
      (derivedRowAfter l x) x.rows (by omega) hkh hwini
  have hnbc : nbInPadding j l.poolSize.2 (derivedColBefore l x)
      (derivedColAfter l x)
      (x.cols + derivedColBefore l x + derivedColAfter l x) =
      ((specInPadding j l.poolSize.2 (derivedColBefore l x)
        (derivedColAfter l x)
        (x.cols + derivedColBefore l x + derivedColAfter l x) : ℕ) : ℤ) :=
    nbInPadding_eq_spec j l.poolSize.2 (derivedColBefore l x)
      (derivedColAfter l x) x.cols (by omega) hkw hwinj
  have hsr := specInPadding_le i l.poolSize.1 (derivedRowBefore l x)
    (derivedRowAfter l x) x.rows
  have hsc := specInPadding_le j l.poolSize.2 (derivedColBefore l x)
    (derivedColAfter l x) x.cols
  have hcard := genuineCells_card i j l.poolSize.1 l.poolSize.2
    (derivedRowBefore l x) (derivedRowAfter l x) (derivedColBefore l x)
    (derivedColAfter l x) x.rows x.cols (by omega) hkh hwini (by omega)
    hkw hwinj
  have hdivcast : ((l.poolSize.1 : ℤ) -
        ((specInPadding i l.poolSize.1 (derivedRowBefore l x)
          (derivedRowAfter l x)
          (x.rows + derivedRowBefore l x + derivedRowAfter l x) : ℕ) : ℤ)) *
      ((l.poolSize.2 : ℤ) -
        ((specInPadding j l.poolSize.2 (derivedColBefore l x)
          (derivedColAfter l x)
          (x.cols + derivedColBefore l x + derivedColAfter l x) : ℕ) : ℤ)) =
      ((specEffectiveCells i j l.poolSize.1 l.poolSize.2
        (derivedRowBefore l x) (derivedRowAfter l x) (derivedColBefore l x)
        (derivedColAfter l x)
        (x.rows + derivedRowBefore l x + derivedRowAfter l x)
        (x.cols + derivedColBefore l x + derivedColAfter l x) : ℕ) : ℤ) := by
    rw [specEffectiveCells]
    have e1 : (l.poolSize.1 : ℤ) -
        ((specInPadding i l.poolSize.1 (derivedRowBefore l x)
          (derivedRowAfter l x)
          (x.rows + derivedRowBefore l x + derivedRowAfter l x) : ℕ) : ℤ) =
        ((l.poolSize.1 - specInPadding i l.poolSize.1 (derivedRowBefore l x)
          (derivedRowAfter l x)
          (x.rows + derivedRowBefore l x + derivedRowAfter l x) : ℕ) : ℤ) := by
      omega
    have e2 : (l.poolSize.2 : ℤ) -
        ((specInPadding j l.poolSize.2 (derivedColBefore l x)
          (derivedColAfter l x)
          (x.cols + derivedColBefore l x + derivedColAfter l x) : ℕ) : ℤ) =
        ((l.poolSize.2 - specInPadding j l.poolSize.2 (derivedColBefore l x)
          (derivedColAfter l x)
          (x.cols + derivedColBefore l x + derivedColAfter l x) : ℕ) : ℤ) := by
      omega
    rw [e1, e2, ← Nat.cast_mul]
  have hxp : paddedInput l x =
      (padInput "average" (derivedRowBefore l x) (derivedRowAfter l x)
        (derivedColBefore l x) (derivedColAfter l x) "same" x).1 := by
    rw [paddedInput, hfunc, hm]
    rfl
  rw [hcell, hfunc, poolCell_average, hxr, hxc, hnbr, hnbc]
  refine ⟨by rw [hdivcast], ?_, hcard⟩
  rw [hdivcast, hcard, hxp,
    windowSum_padded_eq_genuine x l.poolSize.1 l.poolSize.2 i j c
      (derivedRowBefore l x) (derivedRowAfter l x) (derivedColBefore l x)
      (derivedColAfter l x) hc]

/-- Witness for C3: `2 × 2` window, stride `1`, `'same'` average pooling on
a `2 × 2 × 1` input (padding `(0,1,0,1)`, so border windows exist). -/
theorem c3_witness :
    (("same" : String) = "same") ∧ (("average" : String) = "average") ∧
    (0 < 2) ∧ (0 < 1) ∧ (2 ≤ 2) ∧
    (windowStarts (paddedInput ⟨(2, 2), (1, 1), "same", "tf", "average"⟩
      ⟨2, 2, 1, fun i j _ => JSNum.val (2 * i + j)⟩).rows 2 1)[1]? = some 1 ∧
    C3Statement ⟨(2, 2), (1, 1), "same", "tf", "average"⟩
      ⟨2, 2, 1, fun i j _ => JSNum.val (2 * i + j)⟩ :=
  ⟨rfl, rfl, by decide, by decide, by decide, by decide,
    c3_average_excludes_padding ⟨(2, 2), (1, 1), "same", "tf", "average"⟩
      ⟨2, 2, 1, fun i j _ => JSNum.val (2 * i + j)⟩ rfl rfl (by decide)
      (by decide) (by decide) (by decide) (by decide) (by decide)⟩

/-- Counterexample to C3 as stated: `'same'` average pooling, `3 × 3`
window, stride `1`, on a `1 × 1 × 1` input holding `6`.  The single window
overlaps both padding bands; the code's `else if` counts only `1` padding
row/col instead of the full overlap `2`, divides `6` by `4` and outputs
`3/2`, while the claimed full-overlap divisor gives `6` (the mean of the
genuine values). -/
theorem c3_counterexample :
    calcOutputShape ⟨(3, 3), (1, 1), "same", "tf", "average"⟩ 1 1 1 =
      ((1, 1, 1), (1, 1, 1, 1)) ∧
    nbInPadding 0 3 1 1 3 = 1 ∧
    specInPadding 0 3 1 1 3 = 2 ∧
    callData ⟨(3, 3), (1, 1), "same", "tf", "average"⟩
        ⟨1, 1, 1, fun _ _ _ => JSNum.val 6⟩ 0 0 0 ≠
      JSNum.jdiv
        (windowSum (paddedInput ⟨(3, 3), (1, 1), "same", "tf", "average"⟩
          ⟨1, 1, 1, fun _ _ _ => JSNum.val 6⟩) 3 3 0 0 0)
        ((specEffectiveCells 0 0 3 3 1 1 1 1 3 3 : ℕ) : ℤ) := by
  refine ⟨by decide, by decide, by decide, ?_⟩
  have hg : genuineCells 0 0 3 3 1 1
      (⟨1, 1, 1, fun _ _ _ => JSNum.val 6⟩ : Tensor3).rows
      (⟨1, 1, 1, fun _ _ _ => JSNum.val 6⟩ : Tensor3).cols = {(1, 1)} := by
    decide
  have hsum : windowSum (paddedInput ⟨(3, 3), (1, 1), "same", "tf", "average"⟩
      ⟨1, 1, 1, fun _ _ _ => JSNum.val 6⟩) 3 3 0 0 0 = JSNum.val 6 := by
    rw [show paddedInput ⟨(3, 3), (1, 1), "same", "tf", "average"⟩
        ⟨1, 1, 1, fun _ _ _ => JSNum.val 6⟩ =
      (padInput "average" 1 1 1 1 "same"
        ⟨1, 1, 1, fun _ _ _ => JSNum.val 6⟩).1 from rfl,
      windowSum_padded_eq_genuine _ 3 3 0 0 0 1 1 1 1 (by decide),
      genuineSum, hg, Finset.sum_singleton]
  have hcell : callData ⟨(3, 3), (1, 1), "same", "tf", "average"⟩
      ⟨1, 1, 1, fun _ _ _ => JSNum.val 6⟩ 0 0 0 =
      JSNum.jdiv (windowSum (paddedInput ⟨(3, 3), (1, 1), "same", "tf",
        "average"⟩ ⟨1, 1, 1, fun _ _ _ => JSNum.val 6⟩) 3 3 0 0 0) 4 := rfl
  rw [hcell, hsum,
    show ((specEffectiveCells 0 0 3 3 1 1 1 1 3 3 : ℕ) : ℤ) = 1 from by decide]
  simp only [JSNum.jdiv, ne_eq, JSNum.val.injEq]
  norm_num

/-- Witness for C7 at an invalid reducer: the error is raised and is
independent of the input. -/
theorem c7_witness :
    ((⟨(2, 2), (2, 2), "valid", "tf", "banana"⟩ : PoolLayer).poolingFunc ≠
      "max" ∧
     (⟨(2, 2), (2, 2), "valid", "tf", "banana"⟩ : PoolLayer).poolingFunc ≠
      "average") ∧
    poolingCall ⟨(2, 2), (2, 2), "valid", "tf", "banana"⟩
        ⟨1, 1, 1, fun _ _ _ => JSNum.val 0⟩ =
      Except.error
        "[pooling._Pooling2D] pooling function must be max or average." :=
  ⟨by decide,
    (c7_invalid_reducer_error ⟨(2, 2), (2, 2), "valid", "tf", "banana"⟩
      ⟨1, 1, 1, fun _ _ _ => JSNum.val 0⟩).1.mpr (by decide)⟩
